import Mathlib

/-!
Verification of the Quantio calculator / unit-converter core.

The JavaScript sources are shallowly embedded:
* JS numbers are modelled exactly (the exact-rational reading of IEEE-754
  doubles).  A finite value is a `JQ` — an integer numerator together with a
  positive denominator stored as `d1 = den - 1`, kept unnormalized so that
  every arithmetic operation is a structural computation the kernel can
  evaluate; `JQ.toRat` interprets it in `ℚ`.  A JS number is `Option JQ`,
  with `none` playing NaN, and arithmetic propagates NaN exactly as JS does.
* JS strings are Lean `String`s; the string operations the code uses
  (`includes`, `slice`, `split`, template concatenation, `startsWith`,
  `substring`) are defined over `String.data`.
* The calculator's module-level mutable variables (`currentInput`,
  `expression`, `shouldResetInput`) become the fields of `CalcState`, and
  each handler becomes a `CalcState → CalcState` function.
* The DOM-measuring guard `canFitInDisplay` takes its documented no-DOM
  branch (`if (!displayResult) return true;`), so it is the constant `true`
  in this model.
-/

namespace Quantio

/-- A finite JS number, read exactly: the rational `num / (d1 + 1)`.
The denominator is stored minus one so it is positive by construction,
and fractions are not reduced, keeping all arithmetic kernel-computable. -/
structure JQ where
  num : Int
  d1 : Nat
deriving DecidableEq

/-- The (positive) denominator. -/
def JQ.den (q : JQ) : Nat := q.d1 + 1

/-- The rational value of a `JQ`. -/
def JQ.toRat (q : JQ) : ℚ := (q.num : ℚ) / (q.den : ℚ)

/-- The integer `n` as a `JQ`. -/
def JQ.int (n : Int) : JQ := ⟨n, 0⟩

/-- The decimal literal `n × 10⁻ᵏ` as a `JQ` (used for the unit factors). -/
def JQ.dec (n : Int) (k : Nat) : JQ := ⟨n, 10 ^ k - 1⟩

/-- Denominator of the product/sum: `(a.d1+1) * (b.d1+1) - 1`. -/
def JQ.mulD1 (a b : JQ) : Nat := a.d1 * b.d1 + a.d1 + b.d1

/-- Exact `a + b`. -/
def JQ.add (a b : JQ) : JQ :=
  ⟨a.num * b.den + b.num * a.den, a.mulD1 b⟩

/-- Exact `a - b`. -/
def JQ.sub (a b : JQ) : JQ :=
  ⟨a.num * b.den - b.num * a.den, a.mulD1 b⟩

/-- Exact `a * b`. -/
def JQ.mul (a b : JQ) : JQ := ⟨a.num * b.num, a.mulD1 b⟩

/-- Exact `a / b`, meaningful when `b.num ≠ 0` (all uses are so guarded):
`a/b = (a.num · b.den · sign b.num) / (a.den · |b.num|)`. -/
def JQ.div (a b : JQ) : JQ :=
  ⟨a.num * b.den * b.num.sign, a.den * b.num.natAbs - 1⟩

/-- Whether the value is zero (JS `=== 0`); independent of the denominator. -/
def JQ.isZero (q : JQ) : Bool := q.num = 0

/-- A JS number: `some q` is a finite value, `none` is `NaN`. -/
abbrev JSNum := Option JQ

/-- The value of a JS number, `none` for NaN. -/
def jsval : JSNum → Option ℚ := Option.map JQ.toRat

/-- JS `a + b` with NaN propagation. -/
def jadd : JSNum → JSNum → JSNum
  | some a, some b => some (a.add b)
  | _, _ => none

/-- JS `a - b` with NaN propagation. -/
def jsub : JSNum → JSNum → JSNum
  | some a, some b => some (a.sub b)
  | _, _ => none

/-- JS `a * b` with NaN propagation. -/
def jmul : JSNum → JSNum → JSNum
  | some a, some b => some (a.mul b)
  | _, _ => none

/-- JS `a / b` with NaN propagation.  Division by zero is collapsed to the
NaN sentinel; every division the embedded code performs is either guarded
(`secondNum !== 0`) or by a nonzero literal, so this corner is never hit. -/
def jdiv : JSNum → JSNum → JSNum
  | some a, some b => if b.isZero then none else some (a.div b)
  | _, _ => none

/-- JS `x === 0` on a number (`false` for NaN). -/
def jsIsZero : JSNum → Bool
  | some q => q.isZero
  | none => false

/-- Result of `evaluateOperation`: a JS `number` (possibly NaN) or a JS
string (the function only ever produces the string literal `"Error"`). -/
inductive EvalResult where
  | num (v : JSNum)
  | str (s : String)
deriving DecidableEq

/-- Embedding of `evaluateOperation(firstNum, operator, secondNum)`
(CHANGELOG.md lines 637–650): a `switch` on the operator symbol; `"÷"`
returns `secondNum !== 0 ? firstNum / secondNum : "Error"`; the `default`
case returns `NaN`. -/
def evaluateOperation (firstNum : JSNum) (operator : String) (secondNum : JSNum) :
    EvalResult :=
  if operator = "+" then .num (jadd firstNum secondNum)
  else if operator = "-" then .num (jsub firstNum secondNum)
  else if operator = "×" then .num (jmul firstNum secondNum)
  else if operator = "÷" then
    if jsIsZero secondNum = false then .num (jdiv firstNum secondNum)
    else .str "Error"
  else .num none

/-- A unit record of `UNIT_DEFINITIONS` (converter.js lines 15–74):
`{name, abbr, factor}`, where temperature units carry no factor
(JS `undefined`, modelled as `none`). -/
structure UnitDef where
  name : String
  abbr : String
  factor : Option JQ
deriving DecidableEq

/-- `UNIT_DEFINITIONS.length` (converter.js lines 16–29). -/
def lengthUnits : List UnitDef :=
  [⟨"Millimeter", "mm", some (JQ.dec 1 3)⟩,
   ⟨"Centimeter", "cm", some (JQ.dec 1 2)⟩,
   ⟨"Decimeter", "dm", some (JQ.dec 1 1)⟩,
   ⟨"Meter", "m", some (JQ.int 1)⟩,
   ⟨"Decameter", "dam", some (JQ.int 10)⟩,
   ⟨"Hectometer", "hm", some (JQ.int 100)⟩,
   ⟨"Kilometer", "km", some (JQ.int 1000)⟩,
   ⟨"Inch", "in", some (JQ.dec 254 4)⟩,
   ⟨"Foot", "ft", some (JQ.dec 3048 4)⟩,
   ⟨"Yard", "yd", some (JQ.dec 9144 4)⟩,
   ⟨"Mile", "mi", some (JQ.dec 1609344 3)⟩,
   ⟨"Nautical Mile", "nmi", some (JQ.int 1852)⟩]

/-- `UNIT_DEFINITIONS.mass` (converter.js lines 30–42). -/
def massUnits : List UnitDef :=
  [⟨"Milligram", "mg", some (JQ.dec 1 3)⟩,
   ⟨"Centigram", "cg", some (JQ.dec 1 2)⟩,
   ⟨"Decigram", "dg", some (JQ.dec 1 1)⟩,
   ⟨"Gram", "g", some (JQ.int 1)⟩,
   ⟨"Decagram", "dag", some (JQ.int 10)⟩,
   ⟨"Hectogram", "hg", some (JQ.int 100)⟩,
   ⟨"Kilogram", "kg", some (JQ.int 1000)⟩,
   ⟨"Metric Ton", "t", some (JQ.int 1000000)⟩,
   ⟨"Ounce", "oz", some (JQ.dec 283495 4)⟩,
   ⟨"Pound", "lb", some (JQ.dec 453592 3)⟩,
   ⟨"Stone", "st", some (JQ.dec 635029 2)⟩]

/-- `UNIT_DEFINITIONS.temperature` (converter.js lines 43–47): no factors. -/
def temperatureUnits : List UnitDef :=
  [⟨"Celsius", "°C", none⟩,
   ⟨"Fahrenheit", "°F", none⟩,
   ⟨"Kelvin", "K", none⟩]

/-- `UNIT_DEFINITIONS.volume` (converter.js lines 48–61). -/
def volumeUnits : List UnitDef :=
  [⟨"Milliliter", "ml", some (JQ.dec 1 3)⟩,
   ⟨"Centiliter", "cl", some (JQ.dec 1 2)⟩,
   ⟨"Deciliter", "dl", some (JQ.dec 1 1)⟩,
   ⟨"Liter", "L", some (JQ.int 1)⟩,
   ⟨"Decaliter", "dal", some (JQ.int 10)⟩,
   ⟨"Hectoliter", "hl", some (JQ.int 100)⟩,
   ⟨"Cubic Meter", "m³", some (JQ.int 1000)⟩,
   ⟨"Fluid Ounce", "fl oz", some (JQ.dec 295735 7)⟩,
   ⟨"Cup", "cup", some (JQ.dec 236588 6)⟩,
   ⟨"Pint", "pt", some (JQ.dec 473176 6)⟩,
   ⟨"Quart", "qt", some (JQ.dec 946353 6)⟩,
   ⟨"Gallon", "gal", some (JQ.dec 378541 5)⟩]

/-- `UNIT_DEFINITIONS.time` (converter.js lines 62–73). -/
def timeUnits : List UnitDef :=
  [⟨"Nanosecond", "ns", some (JQ.dec 1 9)⟩,
   ⟨"Microsecond", "µs", some (JQ.dec 1 6)⟩,
   ⟨"Millisecond", "ms", some (JQ.dec 1 3)⟩,
   ⟨"Second", "s", some (JQ.int 1)⟩,
   ⟨"Minute", "min", some (JQ.int 60)⟩,
   ⟨"Hour", "h", some (JQ.int 3600)⟩,
   ⟨"Day", "d", some (JQ.int 86400)⟩,
   ⟨"Week", "wk", some (JQ.int 604800)⟩,
   ⟨"Month", "mo", some (JQ.int 2629746)⟩,
   ⟨"Year", "yr", some (JQ.int 31556952)⟩]

/-- The `UNIT_DEFINITIONS` catalog as a lookup by category name; an unknown
category yields `none` (JS property access giving `undefined`). -/
def UNIT_DEFINITIONS (category : String) : Option (List UnitDef) :=
  if category = "length" then some lengthUnits
  else if category = "mass" then some massUnits
  else if category = "temperature" then some temperatureUnits
  else if category = "volume" then some volumeUnits
  else if category = "time" then some timeUnits
  else none

/-- Embedding of `convertValue(value, fromIndex, toIndex, category)`
(converter.js lines 136–174).  The `value === ''` half of the first guard is
dead code for numeric input and the `isNaN` half is the `none` test; missing
units (`!units[fromIndex]`) are the `get?` misses.  In the temperature
branch the `celsius` local is `undefined` (here NaN, `none`) when no
abbreviation matches, and a temperature `toUnit` whose abbreviation matches
no case falls through to the factor-based conversion, exactly as the JS
control flow does. -/
def convertValue (value : JSNum) (fromIndex toIndex : Nat) (category : String) :
    JSNum :=
  if value.isNone then some (JQ.int 0)
  else
    match UNIT_DEFINITIONS category with
    | none => some (JQ.int 0)
    | some units =>
      match units[fromIndex]?, units[toIndex]? with
      | some fromUnit, some toUnit =>
        if category = "temperature" then
          let celsius : JSNum :=
            if fromUnit.abbr = "°C" then value
            else if fromUnit.abbr = "°F" then
              jdiv (jmul (jsub value (some (JQ.int 32))) (some (JQ.int 5)))
                (some (JQ.int 9))
            else if fromUnit.abbr = "K" then jsub value (some (JQ.dec 27315 2))
            else none
          if toUnit.abbr = "°C" then celsius
          else if toUnit.abbr = "°F" then
            jadd (jdiv (jmul celsius (some (JQ.int 9))) (some (JQ.int 5)))
              (some (JQ.int 32))
          else if toUnit.abbr = "K" then jadd celsius (some (JQ.dec 27315 2))
          else jdiv (jmul value fromUnit.factor) toUnit.factor
        else jdiv (jmul value fromUnit.factor) toUnit.factor
      | _, _ => some (JQ.int 0)

/-- The character for a decimal digit `n < 10`. -/
def digitChar (n : Nat) : Char := Char.ofNat (48 + n)

/-- Decimal digits of `n`, most significant first; fuel-bounded so the
recursion is structural (the fuel is always supplied ≥ the digit count). -/
def natDigits : Nat → Nat → List Char
  | 0, _ => []
  | fuel + 1, n =>
    if n < 10 then [digitChar n]
    else natDigits fuel (n / 10) ++ [digitChar (n % 10)]

/-- Count and remove the factors `p` of `n` (fuel-bounded). -/
def stripCount (p : Nat) : Nat → Nat → Nat × Nat
  | 0, n => (0, n)
  | fuel + 1, n =>
    if n ≠ 0 ∧ n % p = 0 ∧ 2 ≤ p then
      let r := stripCount p fuel (n / p)
      (r.1 + 1, r.2)
    else (0, n)

/-- The least `k` with `den ∣ 10^k`, when one exists (`den = 2^a·5^b`). -/
def decScale (den : Nat) : Option Nat :=
  let r2 := stripCount 2 den den
  let r5 := stripCount 5 r2.2 r2.2
  if r5.2 = 1 then some (max r2.1 r5.1) else none

/-- Remove trailing `'0'` characters. -/
def stripZeros (l : List Char) : List Char :=
  (l.reverse.dropWhile (fun c => c = '0')).reverse

/-- Left-pad with `'0'` to at least `target` characters. -/
def padLeft (target : Nat) (l : List Char) : List Char :=
  List.replicate (target - l.length) '0' ++ l

/-- The digit/point/exponent part of `Number.prototype.toString` on `|q|`,
following the `Number::toString` algorithm: with `sd` the significant
digits and `n` the decimal-point position (`|q| = sd · 10^(n - #sd)`),
print plain digits when `#sd ≤ n ≤ 21`, a mid-string point when
`0 < n ≤ 21`, a `0.`-prefixed fraction when `-6 < n ≤ 0`, and otherwise
exponential notation `d(.ddd)e±(n-1)`.  The digit source is the exact
decimal expansion (JS prints the shortest round-tripping digits; exact for
every decimal-denominator value the calculator produces; non-decimal
denominators — artifacts of the exact reading — are cut at 17 digits). -/
def ratBodyAux (sd : List Char) (n : Int) : List Char :=
  if (sd.length : Int) ≤ n ∧ n ≤ 21 then
    sd ++ List.replicate (n - sd.length).toNat '0'
  else if 0 < n ∧ n ≤ 21 then sd.take n.toNat ++ '.' :: sd.drop n.toNat
  else if -6 < n ∧ n ≤ 0 then
    '0' :: '.' :: (List.replicate (-n).toNat '0' ++ sd)
  else
    (if sd.length = 1 then sd else sd.take 1 ++ '.' :: sd.drop 1) ++
      'e' :: (if n - 1 < 0 then '-' else '+') ::
        natDigits ((n - 1).natAbs + 1) (n - 1).natAbs

/-- The digit part of `|q|`: its exact significant digits and decimal-point
position fed to `ratBodyAux`; `"0"` when the value prints as zero. -/
def ratBody (q : JQ) : List Char :=
  let k := (decScale q.den).getD 17
  let scaled := q.num.natAbs * 10 ^ k / q.den
  if scaled = 0 then ['0']
  else ratBodyAux (stripZeros (natDigits (scaled + 1) scaled))
    ((natDigits (scaled + 1) scaled).length - k)

/-- Model of `Number.prototype.toString` on a finite value: a minus sign
for a negative (nonzero-printing) value, then `ratBody`. -/
def ratToString (q : JQ) : String :=
  ⟨(if q.num < 0 ∧ q.num.natAbs * 10 ^ ((decScale q.den).getD 17) / q.den ≠ 0
      then ['-'] else []) ++ ratBody q⟩

/-- `toString` on a JS number, rendering NaN as `"NaN"`. -/
def jsNumToString : JSNum → String
  | none => "NaN"
  | some q => ratToString q

/-- Numeric value of a digit list (accumulator form). -/
def digitsVal : List Char → Nat → Nat
  | [], acc => acc
  | c :: rest, acc => digitsVal rest (acc * 10 + (c.toNat - 48))

/-- Model of `parseFloat` for the string shapes the calculator produces:
optional sign, integer digits, optional `'.'` and fraction digits, ignoring
any trailing junk; `NaN` when no digit is found.  (Exponent suffixes, which
no calculator-reachable string contains, are not parsed.) -/
def jsParseFloat (s : String) : JSNum :=
  let sg : Int := match s.data with
    | '-' :: _ => -1
    | _ => 1
  let l1 := match s.data with
    | '-' :: rest => rest
    | '+' :: rest => rest
    | l => l
  let ip := l1.takeWhile Char.isDigit
  let l2 := l1.dropWhile Char.isDigit
  let fp := match l2 with
    | '.' :: rest => rest.takeWhile Char.isDigit
    | _ => []
  if ip = [] ∧ fp = [] then none
  else some ⟨sg * (digitsVal ip 0 * 10 ^ fp.length + digitsVal fp 0),
    10 ^ fp.length - 1⟩

/-- The calculator session: the module-level mutable variables
`currentInput`, `expression`, `shouldResetInput` of the calculator
component (CHANGELOG.md lines 90–92). -/
structure CalcState where
  currentInput : String
  expression : String
  shouldResetInput : Bool
deriving DecidableEq

/-- The initial session: `currentInput="0"`, `expression=""`,
`shouldResetInput=false`. -/
def initialState : CalcState := ⟨"0", "", false⟩

/-- `canFitInDisplay(input)` (CHANGELOG.md lines 108–147) measures the DOM;
its first line is `if (!displayResult) return true;`, which is the branch
taken in this DOM-less model. -/
def canFitInDisplay (_input : String) : Bool := true

/-- JS `s.includes(c)` for a single character. -/
def containsChar (s : String) (c : Char) : Bool := s.data.contains c

/-- JS `"a b".split(" ")` on character lists. -/
def splitOnSpace : List Char → List (List Char)
  | [] => [[]]
  | c :: rest =>
    let r := splitOnSpace rest
    if c = ' ' then [] :: r
    else
      match r with
      | [] => [[c]]
      | h :: t => (c :: h) :: t

/-- `Math.round(x) = ⌊x + 1/2⌋` on an exact value `p/q`:
`⌊p/q + 1/2⌋ = ⌊(2p+q)/(2q)⌋`, via flooring integer division. -/
def jsRound (q : JQ) : Int := Int.fdiv (2 * q.num + q.den) (2 * q.den)

/-- `Math.round(result * 1000000000) / 1000000000` with NaN propagation. -/
def jsRound9 : JSNum → JSNum
  | none => none
  | some q => some ⟨jsRound ⟨q.num * 1000000000, q.d1⟩, 999999999⟩

/-- The truncation loop of `calculate`:
`while (truncated.length > 0 && !canFitInDisplay(truncated))` drop the last
character (fuel-bounded by the starting length). -/
def truncateToFit : Nat → List Char → List Char
  | 0, l => l
  | fuel + 1, l =>
    if l.length > 0 ∧ canFitInDisplay ⟨l⟩ = false then
      truncateToFit fuel l.dropLast
    else l

/-- Embedding of `calculate()` (CHANGELOG.md lines 660–693): split the
pending expression, parse both operands, evaluate, round away float noise,
truncate an unfittable result (dead in the DOM-less model), or install the
`"Error"` marker; then clear the expression and set the reset flag.
A missing `parts[1]` is JS `undefined`; like `undefined`, the `""` default
matches no operator case of `evaluateOperation`. -/
def calculate (s : CalcState) : CalcState :=
  if s.expression = "" then s
  else
    let parts := splitOnSpace s.expression.data
    let firstNum := jsParseFloat ⟨parts.getD 0 []⟩
    let operator : String := ⟨parts.getD 1 []⟩
    let secondNum := jsParseFloat s.currentInput
    match evaluateOperation firstNum operator secondNum with
    | .num v =>
      let resultString := jsNumToString (jsRound9 v)
      let ci :=
        if canFitInDisplay resultString = false then
          let t := truncateToFit resultString.data.length resultString.data
          if t = [] then "0" else (⟨t⟩ : String)
        else resultString
      { currentInput := ci, expression := "", shouldResetInput := true }
    | .str m => { currentInput := m, expression := "", shouldResetInput := true }

/-- Embedding of `inputNumber(num)` (CHANGELOG.md lines 588–609).  In the
reset branch the flag is cleared before the `canFitInDisplay` check, exactly
as in the source (observable only if the display could reject input). -/
def inputNumber (num : String) (s : CalcState) : CalcState :=
  if s.shouldResetInput = true then
    let s1 := { s with shouldResetInput := false }
    if canFitInDisplay num = false then s1 else { s1 with currentInput := num }
  else if s.currentInput = "0" ∧ num ≠ "." then
    if canFitInDisplay num = false then s else { s with currentInput := num }
  else if num = "." ∧ containsChar s.currentInput '.' = true then s
  else
    let newInput := s.currentInput ++ num
    if canFitInDisplay newInput = false then s
    else { s with currentInput := newInput }

/-- Embedding of `inputOperator(op)` (CHANGELOG.md lines 619–626):
`if (expression && !shouldResetInput) calculate();` then install
`"<currentInput> <op>"` and set the reset flag. -/
def inputOperator (op : String) (s : CalcState) : CalcState :=
  let s1 :=
    if s.expression ≠ "" ∧ s.shouldResetInput = false then calculate s else s
  { s1 with expression := s1.currentInput ++ " " ++ op, shouldResetInput := true }

/-- Embedding of `clear()` (CHANGELOG.md lines 701–706). -/
def clear (_s : CalcState) : CalcState := ⟨"0", "", false⟩

/-- JS `s.startsWith("-")`. -/
def startsWithDash (s : String) : Bool := s.data.head? == some '-'

/-- Embedding of `toggleSign()` (CHANGELOG.md lines 715–729):
`startsWith("-") ? slice(1) : "-" + currentInput`. -/
def toggleSign (s : CalcState) : CalcState :=
  if s.currentInput ≠ "0" then
    let newInput : String :=
      if startsWithDash s.currentInput then ⟨s.currentInput.data.tail⟩
      else "-" ++ s.currentInput
    if canFitInDisplay newInput = false then s
    else { s with currentInput := newInput }
  else s

/-- Embedding of `percentage()` (CHANGELOG.md lines 737–741):
`currentInput = (parseFloat(currentInput) / 100).toString()`. -/
def percentage (s : CalcState) : CalcState :=
  { s with currentInput :=
      jsNumToString (jdiv (jsParseFloat s.currentInput) (some (JQ.int 100))) }

/-- Embedding of `backspace()` (CHANGELOG.md lines 826–833). -/
def backspace (s : CalcState) : CalcState :=
  if s.currentInput.data.length > 1 then
    { s with currentInput := ⟨s.currentInput.data.dropLast⟩ }
  else { s with currentInput := "0" }

/-- The fixed button vocabulary (digits, `.`, the four operators, `=`, `C`,
`±`, `%`, Backspace). -/
inductive Button where
  | digit (d : Fin 10)
  | dot
  | add
  | sub
  | mul
  | div
  | eq
  | cl
  | sign
  | percent
  | back
deriving DecidableEq

/-- The one-character token of a digit button. -/
def digitToken (d : Fin 10) : String := ⟨[digitChar d.val]⟩

/-- The routing of `handleButtonClick(value)` (CHANGELOG.md lines 751–774)
over the fixed vocabulary, together with the keyboard handler's special
case sending `"Backspace"` to `backspace()` (lines 858–862). -/
def press (b : Button) (s : CalcState) : CalcState :=
  match b with
  | .digit d => inputNumber (digitToken d) s
  | .dot => inputNumber "." s
  | .add => inputOperator "+" s
  | .sub => inputOperator "-" s
  | .mul => inputOperator "×" s
  | .div => inputOperator "÷" s
  | .eq => calculate s
  | .cl => clear s
  | .sign => toggleSign s
  | .percent => percentage s
  | .back => backspace s

/-- A whole session: fold `press` over a button sequence. -/
def run (bs : List Button) (s : CalcState) : CalcState :=
  bs.foldl (fun st b => press b st) s

/-- The session state immediately after `5 ÷ 0 =`. -/
def afterDivZero : CalcState := run [.digit 5, .div, .digit 0, .eq] initialState

/-- The lookup table of `mapKeyToValue` (CHANGELOG.md lines 784–814). -/
def keyMap : List (String × String) :=
  [("0", "0"), ("1", "1"), ("2", "2"), ("3", "3"), ("4", "4"), ("5", "5"),
   ("6", "6"), ("7", "7"), ("8", "8"), ("9", "9"), (".", "."), (",", "."),
   ("+", "+"), ("-", "-"), ("*", "×"), ("x", "×"), ("X", "×"), ("/", "÷"),
   ("Enter", "="), ("=", "="), ("Escape", "C"), ("c", "C"), ("C", "C"),
   ("Delete", "C"), ("%", "%"), ("Backspace", "Backspace")]

/-- What `keyMap[key] || null` can evaluate to: a mapped (truthy,
nonempty-string) token; a truthy member inherited from `Object.prototype`
(a function, or the prototype object for `__proto__`), which survives
`|| null`; or `null` itself, from `undefined || null`. -/
inductive KeyLookup where
  | token (s : String)
  | inheritedMember (name : String)
  | nullish
deriving DecidableEq

/-- The property names a plain object literal inherits from
`Object.prototype` (ES2023). -/
def objectPrototypeMembers : List String :=
  ["constructor", "hasOwnProperty", "isPrototypeOf", "propertyIsEnumerable",
   "toLocaleString", "toString", "valueOf", "__proto__", "__defineGetter__",
   "__defineSetter__", "__lookupGetter__", "__lookupSetter__"]

/-- Embedding of `mapKeyToValue(key)`: `keyMap[key] || null` under JS
property-access semantics.  An own property of the literal yields its
token; a miss falls back to the prototype chain, so a key naming an
`Object.prototype` member yields that truthy member, not `null`; only a
genuine `undefined` is converted to `null` by `|| null`. -/
def mapKeyToValue (key : String) : KeyLookup :=
  match keyMap.lookup key with
  | some v => .token v
  | none =>
    if key ∈ objectPrototypeMembers then .inheritedMember key else .nullish

/-- Binary length of `n` (fuel-bounded). -/
def bitLen : Nat → Nat → Nat
  | 0, _ => 0
  | f + 1, n => if n = 0 then 0 else bitLen f (n / 2) + 1

/-- The `e` with `2^e ≤ n/d < 2^(e+1)`, for `n, d ≥ 1`. -/
def floorLog2 (n d : Nat) : Int :=
  let t : Int := (bitLen n n : Int) - (bitLen d d : Int)
  if 0 ≤ t then (if d * 2 ^ t.toNat ≤ n then t else t - 1)
  else (if d ≤ n * 2 ^ (-t).toNat then t else t - 1)

/-- `a / b` rounded to the nearest integer, ties to even (`b ≥ 1`). -/
def roundMantissa (a b : Nat) : Nat :=
  let q := a / b
  let r := a % b
  if 2 * r < b then q
  else if b < 2 * r then q + 1
  else if q % 2 = 0 then q else q + 1

/-- Round an exact value to the nearest IEEE-754 binary64 double
(round-to-nearest, ties-to-even, 53-bit significand).  Overflow and
subnormals, which never arise at the magnitudes considered here, are not
modelled.  A significand carry to `2^53` needs no renormalizing since the
result is represented as an exact scaled integer. -/
def roundDouble (x : JQ) : JQ :=
  if x.num = 0 then ⟨0, 0⟩
  else
    let n := x.num.natAbs
    let e := floorLog2 n x.den
    let s : Int := 52 - e
    let m := if 0 ≤ s then roundMantissa (n * 2 ^ s.toNat) x.den
             else roundMantissa n (x.den * 2 ^ (-s).toNat)
    let sgn : Int := if x.num < 0 then -1 else 1
    if 0 ≤ s then ⟨sgn * m, 2 ^ s.toNat - 1⟩
    else ⟨sgn * (m * 2 ^ (-s).toNat), 0⟩

/-- IEEE-754 double addition: the exact sum, correctly rounded. -/
def dAdd (a b : JQ) : JQ := roundDouble (a.add b)

/-- IEEE-754 double subtraction: the exact difference, correctly rounded. -/
def dSub (a b : JQ) : JQ := roundDouble (a.sub b)

/-- IEEE-754 double multiplication: the exact product, correctly rounded. -/
def dMul (a b : JQ) : JQ := roundDouble (a.mul b)

/-- IEEE-754 double division: the exact quotient, correctly rounded. -/
def dDiv (a b : JQ) : JQ := roundDouble (a.div b)

/-- JS `a + b` on doubles with NaN propagation. -/
def djadd : JSNum → JSNum → JSNum
  | some a, some b => some (dAdd a b)
  | _, _ => none

/-- JS `a - b` on doubles with NaN propagation. -/
def djsub : JSNum → JSNum → JSNum
  | some a, some b => some (dSub a b)
  | _, _ => none

/-- JS `a * b` on doubles with NaN propagation. -/
def djmul : JSNum → JSNum → JSNum
  | some a, some b => some (dMul a b)
  | _, _ => none

/-- JS `a / b` on doubles with NaN propagation (division by zero guarded
at every use, as in `jdiv`). -/
def djdiv : JSNum → JSNum → JSNum
  | some a, some b => if b.isZero then none else some (dDiv a b)
  | _, _ => none

/-- The same source lines as `convertValue` (converter.js lines 136–174)
read under IEEE-754 binary64 semantics: every numeric literal denotes the
nearest double and every arithmetic operation rounds correctly to 53 bits.
Used to witness where the exact reading and the double semantics of the
program disagree. -/
def convertValueD (value : JSNum) (fromIndex toIndex : Nat) (category : String) :
    JSNum :=
  if value.isNone then some (JQ.int 0)
  else
    match UNIT_DEFINITIONS category with
    | none => some (JQ.int 0)
    | some units =>
      match units[fromIndex]?, units[toIndex]? with
      | some fromUnit, some toUnit =>
        if category = "temperature" then
          let celsius : JSNum :=
            if fromUnit.abbr = "°C" then value
            else if fromUnit.abbr = "°F" then
              djdiv (djmul (djsub value (some (roundDouble (JQ.int 32))))
                  (some (roundDouble (JQ.int 5))))
                (some (roundDouble (JQ.int 9)))
            else if fromUnit.abbr = "K" then
              djsub value (some (roundDouble (JQ.dec 27315 2)))
            else none
          if toUnit.abbr = "°C" then celsius
          else if toUnit.abbr = "°F" then
            djadd (djdiv (djmul celsius (some (roundDouble (JQ.int 9))))
                (some (roundDouble (JQ.int 5))))
              (some (roundDouble (JQ.int 32)))
          else if toUnit.abbr = "K" then
            djadd celsius (some (roundDouble (JQ.dec 27315 2)))
          else djdiv (djmul value (fromUnit.factor.map roundDouble))
            (toUnit.factor.map roundDouble)
        else djdiv (djmul value (fromUnit.factor.map roundDouble))
          (toUnit.factor.map roundDouble)
      | _, _ => some (JQ.int 0)

/-- Embedding of `getByteSize(str)` (converter.js lines 196–198):
`new Blob([str]).size` is the UTF-8 byte count. -/
def getByteSize (s : String) : Nat := s.utf8ByteSize

/-- Number of decimal digits of `m` (as printed by `natDigits`). -/
def digitCount (m : Nat) : Nat := (natDigits (m + 1) m).length

/-- The least `t ≥ t₀` with `n · 10^t ≥ den` (fuel-bounded upward search);
used for the decimal exponent of values below one. -/
def negExpSearch (n den : Nat) : Nat → Nat → Nat
  | 0, t => t
  | fuel + 1, t => if n * 10 ^ t ≥ den then t else negExpSearch n den fuel (t + 1)

/-- Model of `Number.prototype.toFixed(p)` on a finite value: sign-magnitude
rounding half away from zero to exactly `p` fraction digits (no decimal
point when `p = 0`); `⌊x + 1/2⌋` on `|q|·10^p` is computed as
`(2·n·10^p + den) / (2·den)` in `Nat`.  (The switch to `toString` for
magnitudes ≥ 1e21 is not modelled.) -/
def toFixed (q : JQ) (p : Nat) : String :=
  let m := (2 * q.num.natAbs * 10 ^ p + q.den) / (2 * q.den)
  let padded := padLeft (p + 1) (natDigits (m + 1) m)
  ⟨(if q.num < 0 then ['-'] else []) ++ padded.take (padded.length - p) ++
    (if p = 0 then [] else '.' :: padded.drop (padded.length - p))⟩

/-- Model of `Number.prototype.toExponential(2)` on a finite value:
`d.dd` mantissa rounded half away from zero and a signed decimal exponent,
`"0.00e+0"` for zero. -/
def toExponential2 (q : JQ) : String :=
  if q.num = 0 then "0.00e+0"
  else
    let n := q.num.natAbs
    let e : Int :=
      if q.den ≤ n then ((digitCount (n / q.den) - 1 : Nat) : Int)
      else -(negExpSearch n q.den (digitCount q.den + 2) 1 : Int)
    let ab : Nat × Nat :=
      if 0 ≤ e then (n * 100, q.den * 10 ^ e.toNat)
      else (n * 100 * 10 ^ (-e).toNat, q.den)
    let m3 := (2 * ab.1 + ab.2) / (2 * ab.2)
    let me : Nat × Int := if 1000 ≤ m3 then (m3 / 10, e + 1) else (m3, e)
    let ds := natDigits (me.1 + 1) me.1
    ⟨(if q.num < 0 then ['-'] else []) ++ ds.take 1 ++ '.' :: ds.drop 1 ++
      'e' :: (if me.2 < 0 then '-' else '+') ::
        natDigits (me.2.natAbs + 1) me.2.natAbs⟩

/-- The precision-reduction loop of `limitOutputSize` / `validateAndLimitInput`
(converter.js lines 278–286): while the string is over budget and precision
(= fuel − 1) has not passed 0, re-render via
`parseFloat(value.toFixed(precision)).toString()`.  Started with fuel 11,
so precision runs 10, 9, …, 0. -/
def reduceLoop (value : JQ) : Nat → String → String
  | 0, vs => vs
  | fuel + 1, vs =>
    if getByteSize vs > 8 then
      reduceLoop value fuel (jsNumToString (jsParseFloat (toFixed value fuel)))
    else vs

/-- Embedding of `limitOutputSize(value)` (converter.js lines 267–302).
The JS mutates one `valueString` variable; here each stage names the value
it tests, with identical control flow: NaN (with `null`/`undefined`
collapsed into it) gives `""`; a fitting `toString` is returned as is;
otherwise precision reduction, then exponential notation, then the hard
`substring(0, 7)` fallback. -/
def limitOutputSize (value : JSNum) : String :=
  match value with
  | none => ""
  | some v =>
    if getByteSize (ratToString v) > 8 then
      if getByteSize (reduceLoop v 11 (ratToString v)) > 8 then
        if getByteSize (toExponential2 v) > 8 then
          ⟨(toExponential2 v).data.take 7⟩
        else toExponential2 v
      else reduceLoop v 11 (ratToString v)
    else ratToString v

end Quantio

namespace Quantio

theorem JQ.den_pos (q : JQ) : 0 < q.den := Nat.succ_pos _

theorem JQ.den_cast_ne (q : JQ) : ((q.den : ℚ)) ≠ 0 := by
  exact_mod_cast q.den_pos.ne'

theorem JQ.toRat_add (a b : JQ) : (a.add b).toRat = a.toRat + b.toRat := by
  unfold JQ.toRat JQ.add JQ.den JQ.mulD1
  have ha : ((a.d1 : ℚ) + 1) ≠ 0 := by positivity
  have hb : ((b.d1 : ℚ) + 1) ≠ 0 := by positivity
  have hd : ((a.d1 : ℚ) * b.d1 + a.d1 + b.d1 + 1) ≠ 0 := by positivity
  push_cast
  rw [div_add_div _ _ ha hb, div_eq_div_iff hd (mul_ne_zero ha hb)]
  ring

theorem JQ.toRat_sub (a b : JQ) : (a.sub b).toRat = a.toRat - b.toRat := by
  unfold JQ.toRat JQ.sub JQ.den JQ.mulD1
  have ha : ((a.d1 : ℚ) + 1) ≠ 0 := by positivity
  have hb : ((b.d1 : ℚ) + 1) ≠ 0 := by positivity
  have hd : ((a.d1 : ℚ) * b.d1 + a.d1 + b.d1 + 1) ≠ 0 := by positivity
  push_cast
  rw [div_sub_div _ _ ha hb, div_eq_div_iff hd (mul_ne_zero ha hb)]
  ring

theorem JQ.toRat_mul (a b : JQ) : (a.mul b).toRat = a.toRat * b.toRat := by
  unfold JQ.toRat JQ.mul JQ.den JQ.mulD1
  have ha : ((a.d1 : ℚ) + 1) ≠ 0 := by positivity
  have hb : ((b.d1 : ℚ) + 1) ≠ 0 := by positivity
  have hd : ((a.d1 : ℚ) * b.d1 + a.d1 + b.d1 + 1) ≠ 0 := by positivity
  push_cast
  rw [div_mul_div_comm, div_eq_div_iff hd (mul_ne_zero ha hb)]
  ring

theorem JQ.isZero_iff (q : JQ) : q.isZero = true ↔ q.toRat = 0 := by
  have hd := q.den_cast_ne
  unfold JQ.isZero JQ.toRat
  rw [div_eq_zero_iff]
  simp [hd, Int.cast_eq_zero]

theorem JQ.toRat_div (a b : JQ) (hb : b.isZero = false) :
    (a.div b).toRat = a.toRat / b.toRat := by
  have hbn : b.num ≠ 0 := by
    simpa [JQ.isZero, decide_eq_false_iff_not] using hb
  have habs : (1 : Nat) ≤ (a.d1 + 1) * b.num.natAbs :=
    Nat.one_le_iff_ne_zero.mpr
      (Nat.mul_ne_zero (Nat.succ_ne_zero _) (Int.natAbs_ne_zero.mpr hbn))
  have ha : ((a.d1 : ℚ) + 1) ≠ 0 := by positivity
  have hb2 : ((b.d1 : ℚ) + 1) ≠ 0 := by positivity
  have hbq : (b.num : ℚ) ≠ 0 := by exact_mod_cast hbn
  unfold JQ.toRat JQ.div JQ.den
  rw [Nat.sub_add_cancel habs]
  rcases hbn.lt_or_lt with h | h
  · have hs : b.num.sign = -1 := Int.sign_eq_neg_one_iff_neg.mpr h
    have habs2 : ((b.num.natAbs : Nat) : ℚ) = -(b.num : ℚ) := by
      rw [Int.cast_natAbs, abs_of_neg h]
      push_cast
      ring
    have hden1 : ((a.d1 : ℚ) + 1) * -(b.num : ℚ) ≠ 0 :=
      mul_ne_zero ha (neg_ne_zero.mpr hbq)
    have hden2 : (b.num : ℚ) / ((b.d1 : ℚ) + 1) ≠ 0 := div_ne_zero hbq hb2
    push_cast [hs, habs2]
    rw [div_eq_div_iff hden1 hden2]
    field_simp
    ring
  · have hs : b.num.sign = 1 := Int.sign_eq_one_iff_pos.mpr h
    have habs2 : ((b.num.natAbs : Nat) : ℚ) = (b.num : ℚ) := by
      rw [Int.cast_natAbs, abs_of_pos h]
    have hden1 : ((a.d1 : ℚ) + 1) * (b.num : ℚ) ≠ 0 := mul_ne_zero ha hbq
    have hden2 : (b.num : ℚ) / ((b.d1 : ℚ) + 1) ≠ 0 := div_ne_zero hbq hb2
    push_cast [hs, habs2]
    rw [div_eq_div_iff hden1 hden2]
    field_simp
    ring

theorem jsIsZero_false_of_ne (b : JQ) (hb : b.toRat ≠ 0) : b.isZero = false := by
  rcases h : b.isZero with _ | _
  · rfl
  · exact absurd (b.isZero_iff.mp h) hb

/-- C1: for finite operands `a`, `b` and each operator in `{+, −, ×, ÷}`
(with `b ≠ 0` for `÷`), `evaluateOperation` returns a finite number whose
value is exactly the result of that arithmetic operation on the operand
values (the exact reading of the corresponding IEEE-754 operation). -/
theorem evaluateOperation_matches_arithmetic (a b : JQ) :
    (∃ r, evaluateOperation (some a) "+" (some b) = .num (some r) ∧
        r.toRat = a.toRat + b.toRat) ∧
    (∃ r, evaluateOperation (some a) "-" (some b) = .num (some r) ∧
        r.toRat = a.toRat - b.toRat) ∧
    (∃ r, evaluateOperation (some a) "×" (some b) = .num (some r) ∧
        r.toRat = a.toRat * b.toRat) ∧
    (b.toRat ≠ 0 → ∃ r, evaluateOperation (some a) "÷" (some b) = .num (some r) ∧
        r.toRat = a.toRat / b.toRat) := by
  refine ⟨⟨a.add b, rfl, a.toRat_add b⟩, ⟨a.sub b, rfl, a.toRat_sub b⟩,
    ⟨a.mul b, rfl, a.toRat_mul b⟩, fun hb => ⟨a.div b, ?_, a.toRat_div b
      (jsIsZero_false_of_ne b hb)⟩⟩
  have h := jsIsZero_false_of_ne b hb
  simp [evaluateOperation, jsIsZero, jdiv, h]

/-- C1 witness: the division clause evaluated at `a = 1`, `b = 2`. -/
theorem evaluateOperation_matches_arithmetic_witness :
    ((JQ.int 2).toRat ≠ 0) ∧
      (∃ r, evaluateOperation (some (JQ.int 1)) "÷" (some (JQ.int 2)) = .num (some r) ∧
        r.toRat = (JQ.int 1).toRat / (JQ.int 2).toRat) := by
  have h2 : (JQ.int 2).toRat ≠ 0 := by
    norm_num [JQ.int, JQ.toRat, JQ.den]
  exact ⟨h2, (evaluateOperation_matches_arithmetic (JQ.int 1) (JQ.int 2)).2.2.2 h2⟩

/-- C2: `evaluateOperation` yields the string `"Error"` exactly when the
operator is `"÷"` and the second operand is the finite value zero — for
every first operand, NaN included — and yields the NaN sentinel for every
operator outside `{+, -, ×, ÷}`.  (It is a total function: no exception
path exists.) -/
theorem evaluateOperation_error_and_default :
    (∀ (a b : JSNum) (op : String),
        evaluateOperation a op b = .str "Error" ↔
          (op = "÷" ∧ ∃ q, b = some q ∧ q.toRat = 0)) ∧
    (∀ (a b : JSNum) (op : String), op ∉ (["+", "-", "×", "÷"] : List String) →
        evaluateOperation a op b = .num none) := by
  constructor
  · intro a b op
    constructor
    · intro h
      by_cases h4 : op = "÷"
      · subst h4
        rcases b with _ | q
        · exfalso
          rcases a with _ | p <;> simp [evaluateOperation, jsIsZero, jdiv] at h
        · by_cases hz : q.isZero = true
          · exact ⟨rfl, q, rfl, q.isZero_iff.mp hz⟩
          · exfalso
            have hz' : q.isZero = false := by simpa using hz
            rcases a with _ | p <;>
              simp [evaluateOperation, jsIsZero, jdiv, hz'] at h
      · exfalso
        unfold evaluateOperation at h
        split_ifs at h
    · rintro ⟨rfl, q, rfl, hq⟩
      have hz : q.isZero = true := q.isZero_iff.mpr hq
      simp [evaluateOperation, jsIsZero, hz]
  · intro a b op hop
    simp only [List.mem_cons, List.not_mem_nil, or_false, not_or] at hop
    simp [evaluateOperation, hop.1, hop.2.1, hop.2.2.1, hop.2.2.2]

/-- C2 witness: the unknown-operator clause evaluated at `op = "%"`, and the
error clause instantiated in the forward direction at `a = 5`, `b = 0`. -/
theorem evaluateOperation_error_and_default_witness :
    ("%" ∉ (["+", "-", "×", "÷"] : List String)) ∧
      evaluateOperation (some (JQ.int 1)) "%" (some (JQ.int 2)) = .num none ∧
      evaluateOperation (some (JQ.int 5)) "÷" (some (JQ.int 0)) = .str "Error" := by
  refine ⟨by decide, evaluateOperation_error_and_default.2 _ _ "%" (by decide), ?_⟩
  exact (evaluateOperation_error_and_default.1 (some (JQ.int 5)) (some (JQ.int 0))
    "÷").mpr ⟨rfl, JQ.int 0, rfl, by norm_num [JQ.int, JQ.toRat, JQ.den]⟩

theorem JQ.toRat_int (n : Int) : (JQ.int n).toRat = (n : ℚ) := by
  norm_num [JQ.int, JQ.toRat, JQ.den]

theorem JQ.toRat_ne_zero (q : JQ) (hq : q.isZero = false) : q.toRat ≠ 0 :=
  fun hc => by simp [q.isZero_iff.mpr hc] at hq

/-- C5: `convertValue` silently returns `0` on every precondition failure:
NaN input value, unknown category, or an out-of-range unit index.  (Being a
total Lean function, it also cannot throw.) -/
theorem convertValue_silent_zero (value : JSNum) (i j : Nat) (category : String)
    (h : value = none ∨ UNIT_DEFINITIONS category = none ∨
      ∃ units, UNIT_DEFINITIONS category = some units ∧
        (units.length ≤ i ∨ units.length ≤ j)) :
    convertValue value i j category = some (JQ.int 0) := by
  rcases h with rfl | h | ⟨units, hu, hrange⟩
  · simp [convertValue]
  · rcases value with _ | q
    · simp [convertValue]
    · simp [convertValue, h]
  · rcases value with _ | q
    · simp [convertValue]
    · rcases hrange with hrange | hrange
      · have : units[i]? = none := List.getElem?_eq_none hrange
        simp [convertValue, hu, this]
      · have : units[j]? = none := List.getElem?_eq_none hrange
        rcases hi : units[i]? with _ | u <;>
          simp [convertValue, hu, hi, this]

/-- C5 witness: an out-of-range `fromIndex` for the length category. -/
theorem convertValue_silent_zero_witness :
    (UNIT_DEFINITIONS "length" = some lengthUnits ∧ lengthUnits.length ≤ 50) ∧
      convertValue (some (JQ.int 1)) 50 0 "length" = some (JQ.int 0) :=
  ⟨⟨by decide, by decide⟩,
   convertValue_silent_zero (some (JQ.int 1)) 50 0 "length"
     (Or.inr (Or.inr ⟨lengthUnits, by decide, Or.inl (by decide)⟩))⟩

/-- C6: the temperature fixed points.  Celsius, Fahrenheit, Kelvin are
indices 0, 1, 2 of the temperature catalog; `0 °C = 32 °F`,
`100 °C = 212 °F`, `0 °C = 273.15 K`, all exactly. -/
theorem convertValue_temperature_fixed_points :
    jsval (convertValue (some (JQ.int 0)) 0 1 "temperature") = some 32 ∧
    jsval (convertValue (some (JQ.int 100)) 0 1 "temperature") = some 212 ∧
    jsval (convertValue (some (JQ.int 0)) 0 2 "temperature") = some 273.15 := by
  have h1 : convertValue (some (JQ.int 0)) 0 1 "temperature" =
      some (⟨160, 4⟩ : JQ) := by decide
  have h2 : convertValue (some (JQ.int 100)) 0 1 "temperature" =
      some (⟨1060, 4⟩ : JQ) := by decide
  have h3 : convertValue (some (JQ.int 0)) 0 2 "temperature" =
      some (⟨27315, 99⟩ : JQ) := by decide
  refine ⟨?_, ?_, ?_⟩ <;>
    simp only [h1, h2, h3, jsval, Option.map_some'] <;>
    norm_num [JQ.toRat, JQ.den]

theorem convertValue_std_self (category : String) (hne : category ≠ "temperature")
    (units : List UnitDef) (hu : UNIT_DEFINITIONS category = some units)
    (i : Nat) (hi : i < units.length) (f : JQ)
    (hf : (units.get ⟨i, hi⟩).factor = some f) (hf0 : f.isZero = false)
    (v : JQ) : jsval (convertValue (some v) i i category) = some v.toRat := by
  have hget : units[i]? = some (units.get ⟨i, hi⟩) := by
    rw [List.getElem?_eq_getElem hi, List.get_eq_getElem]
  have hfr : f.toRat ≠ 0 := f.toRat_ne_zero hf0
  simp only [convertValue, Option.isNone_some, Bool.false_eq_true, if_false,
    hu, hget, hf, if_neg hne, jmul, jdiv, hf0, Bool.false_eq_true, if_false,
    jsval, Option.map_some']
  rw [JQ.toRat_div _ _ hf0, JQ.toRat_mul, mul_div_assoc, div_self hfr, mul_one]

/-- C7 amended: converting any value from a unit to itself is the identity
for every category in the catalog and every valid unit index, under exact
(infinitely precise) arithmetic — the conversion expression cancels
symbolically.  (Under the program's IEEE-754 doubles the identity can fail
by a rounding ulp; see the counterexample.) -/
theorem convertValue_self_identity (category : String) (units : List UnitDef)
    (hu : UNIT_DEFINITIONS category = some units)
    (i : Nat) (hi : i < units.length) (v : JQ) :
    jsval (convertValue (some v) i i category) = some v.toRat := by
  unfold UNIT_DEFINITIONS at hu
  have hstd : ∀ (cat : String), cat ≠ "temperature" →
      UNIT_DEFINITIONS cat = some units →
      (units.all fun u => match u.factor with
        | some f => !f.isZero
        | none => false) = true →
      jsval (convertValue (some v) i i cat) = some v.toRat := by
    intro cat hne hu' hall
    have hmem := List.all_eq_true.mp hall _ (units.get_mem i hi)
    rcases hfac : (units.get ⟨i, hi⟩).factor with _ | f
    · rw [hfac] at hmem; simp at hmem
    · rw [hfac] at hmem
      simp only [Bool.not_eq_true'] at hmem
      exact convertValue_std_self cat hne units hu' i hi f hfac hmem v
  split_ifs at hu with hc1 hc2 hc3 hc4 hc5
  · injection hu with hu; subst hu; subst hc1
    exact hstd "length" (by decide) (by decide) (by decide)
  · injection hu with hu; subst hu; subst hc2
    exact hstd "mass" (by decide) (by decide) (by decide)
  · injection hu with hu; subst hu; subst hc3
    have hi3 : i < 3 := by simpa [temperatureUnits] using hi
    interval_cases i
    · have hr : convertValue (some v) 0 0 "temperature" = some v := by
        simp [convertValue, UNIT_DEFINITIONS, temperatureUnits]
      simp [hr, jsval]
    · have hr : convertValue (some v) 1 1 "temperature" =
          some ((((v.sub (JQ.int 32)).mul (JQ.int 5)).div (JQ.int 9)).mul
            (JQ.int 9) |>.div (JQ.int 5) |>.add (JQ.int 32)) := by
        simp [convertValue, UNIT_DEFINITIONS, temperatureUnits, jsub, jmul,
          jdiv, jadd, JQ.isZero, JQ.int]
      rw [hr]
      simp only [jsval, Option.map_some', Option.some.injEq]
      rw [JQ.toRat_add, JQ.toRat_div _ _ (by decide), JQ.toRat_mul,
        JQ.toRat_div _ _ (by decide), JQ.toRat_mul, JQ.toRat_sub]
      simp only [JQ.toRat_int]
      push_cast
      ring
    · have hr : convertValue (some v) 2 2 "temperature" =
          some ((v.sub (JQ.dec 27315 2)).add (JQ.dec 27315 2)) := by
        simp [convertValue, UNIT_DEFINITIONS, temperatureUnits, jsub, jadd]
      rw [hr]
      simp only [jsval, Option.map_some', Option.some.injEq]
      rw [JQ.toRat_add, JQ.toRat_sub]
      ring
  · injection hu with hu; subst hu; subst hc4
    exact hstd "volume" (by decide) (by decide) (by decide)
  · injection hu with hu; subst hu; subst hc5
    exact hstd "time" (by decide) (by decide) (by decide)

/-- C7 witness: meters to meters (length index 3) at `v = 7`. -/
theorem convertValue_self_identity_witness :
    (UNIT_DEFINITIONS "length" = some lengthUnits ∧ 3 < lengthUnits.length) ∧
      jsval (convertValue (some (JQ.int 7)) 3 3 "length") =
        some (JQ.int 7).toRat :=
  ⟨⟨by decide, by decide⟩,
   convertValue_self_identity "length" lengthUnits (by decide) 3 (by decide)
     (JQ.int 7)⟩

set_option maxRecDepth 4000 in
/-- C7 counterexample: under the program's IEEE-754 double semantics
(`convertValueD`: every literal the nearest double, every operation
correctly rounded to 53 bits), converting `3` from decimeters to
decimeters (length index 2, factor `0.1`) computes
`3 × 0.1 / 0.1 = 3.0000000000000004 ≠ 3` — the double `6755399441055745 / 2^51`
— so the claimed exact self-identity fails on the code. -/
theorem convertValue_self_identity_counterexample :
    convertValueD (some (JQ.int 3)) 2 2 "length" =
        some (⟨6755399441055745, 2251799813685247⟩ : JQ) ∧
      (⟨6755399441055745, 2251799813685247⟩ : JQ).toRat ≠ (JQ.int 3).toRat := by
  constructor
  · decide
  · norm_num [JQ.toRat, JQ.den, JQ.int]

/-- C3: from the cleared state, the sequence `5 + 3 + 2 =` leaves
`currentInput = "10"` — left-to-right chain evaluation (5+3=8, 8+2=10). -/
theorem chain_five_plus_three_plus_two :
    (run [.digit 5, .add, .digit 3, .add, .digit 2, .eq]
      initialState).currentInput = "10" := by decide

theorem lookup_eq_none_of_not_mem_keys (key : String) :
    ∀ (l : List (String × String)), key ∉ l.map Prod.fst → l.lookup key = none := by
  intro l
  induction l with
  | nil => intro _; rfl
  | cons p t ih =>
    intro hm
    simp only [List.map_cons, List.mem_cons, not_or] at hm
    have hne : (key == p.1) = false := beq_eq_false_iff_ne.mpr hm.1
    rcases p with ⟨k, v⟩
    simp only at hne
    simp [List.lookup, hne, ih hm.2]

/-- C9 counterexample: `"toString"` is outside the mapped vocabulary, yet
`keyMap["toString"]` finds the truthy `Object.prototype.toString` through
the prototype chain, so `mapKeyToValue("toString")` returns that inherited
member and not `null` as the claim states. -/
theorem mapKeyToValue_proto_counterexample :
    ("toString" ∉ keyMap.map Prod.fst) ∧
      mapKeyToValue "toString" = .inheritedMember "toString" ∧
      mapKeyToValue "toString" ≠ .nullish := by decide

/-- C9 amended: `mapKeyToValue` returns `null` for every key that is
neither in the mapped vocabulary (the 26 keys of the table: digits 0–9,
`.`, `,`, `+`, `-`, `*`, `x`, `X`, `/`, `Enter`, `=`, `Escape`, `c`, `C`,
`Delete`, `%`, `Backspace`) nor the name of a property inherited from
`Object.prototype` (such a key — which no keyboard event produces —
returns the truthy inherited member instead); for every mapped key it
returns the table's token. -/
theorem mapKeyToValue_spec :
    (∀ key : String, key ∉ keyMap.map Prod.fst →
      key ∉ objectPrototypeMembers → mapKeyToValue key = .nullish) ∧
    (∀ p ∈ keyMap, mapKeyToValue p.1 = .token p.2) := by
  constructor
  · intro key h1 h2
    unfold mapKeyToValue
    rw [lookup_eq_none_of_not_mem_keys key keyMap h1]
    simp [h2]
  · decide

/-- C9 witness: the unmapped, non-prototype key `"F1"` and the mapped key
`"*"`. -/
theorem mapKeyToValue_spec_witness :
    ("F1" ∉ keyMap.map Prod.fst ∧ "F1" ∉ objectPrototypeMembers ∧
        ("*", "×") ∈ keyMap) ∧
      mapKeyToValue "F1" = .nullish ∧ mapKeyToValue "*" = .token "×" :=
  ⟨⟨by decide, by decide, by decide⟩,
    mapKeyToValue_spec.1 "F1" (by decide) (by decide),
    mapKeyToValue_spec.2 ("*", "×") (by decide)⟩

/-- C10 counterexample: after `5 ÷ 0 =` the state is exactly
(`"Error"`, `""`, reset flag set), but the next digit press REPLACES the
text instead of appending to it: pressing `3` yields `"3"`, not
`"Error3"` as the claim states. -/
theorem error_then_digit_counterexample :
    afterDivZero = ⟨"Error", "", true⟩ ∧
      (press (.digit 3) afterDivZero).currentInput = "3" ∧
      (press (.digit 3) afterDivZero).currentInput ≠ "Error3" := by decide

/-- C10 amended: in the state after a division-by-zero equals, the first
subsequent digit entry replaces the `"Error"` text with that digit (and
clears the reset flag): the reset branch of `inputNumber` fires before the
`currentInput !== "0"` comparison is ever consulted. -/
theorem error_then_digit_replaces (d : Fin 10) :
    press (.digit d) afterDivZero =
      { currentInput := digitToken d, expression := "", shouldResetInput := false } := by
  have h : afterDivZero = ⟨"Error", "", true⟩ := by decide
  rw [h]
  simp [press, inputNumber, canFitInDisplay]

theorem isDigit_ne_dot (c : Char) (h : c.isDigit = true) : c ≠ '.' :=
  fun hh => by subst hh; exact absurd h (by decide)

theorem count_dot_zero_of_digits (l : List Char)
    (h : ∀ c ∈ l, c.isDigit = true) : l.count '.' = 0 :=
  List.count_eq_zero.mpr (fun hm => absurd (h _ hm) (by decide))

/-- C8: for every finite numeric input, `limitOutputSize` returns a string
within the 8-byte budget, except through the hard-truncation fallback,
whose output is the 7-character prefix of the exponential form — hence at
most `maxBytes − 1 = 7` characters. -/
theorem limitOutputSize_byte_budget (v : JQ) :
    getByteSize (limitOutputSize (some v)) ≤ 8 ∨
      (limitOutputSize (some v) = ⟨(toExponential2 v).data.take 7⟩ ∧
        (limitOutputSize (some v)).length ≤ 7) := by
  simp only [limitOutputSize]
  split_ifs with h1 h2 h3
  · right
    refine ⟨rfl, ?_⟩
    show ((toExponential2 v).data.take 7).length ≤ 7
    simp
  · left; omega
  · left; omega
  · left; omega

end Quantio
